import Mathlib

/-!
Verification development for the DCIM-IITH (NetBox) repository.

Shallow embedding of the code under scrutiny:
* `extras/scripts.py` — the `run_script` job harness (rollback, logging, job status);
* `ipam/models/vlans.py` — `VLANGroup.get_available_vids` / `get_next_available_vid`
  and `VLAN.clean`;
* `netbox/search/backends.py` — `CachedValueSearchBackend.search` and the
  post-save / post-delete cache signal handlers;
* `utilities/forms/bulk_import.py` — `BulkImportForm._detect_format` / `_clean_json`;
* `dcim/utils.py` — `compile_path_node` / `decompile_path_node`;
* `dcim/forms/common.py` — `InterfaceCommonForm.clean`.

Database state, Django ORM calls and library primitives (JSON parsing, decimal
integer formatting) are modelled explicitly; each definition mirrors the control
flow of the corresponding Python function.
-/

namespace DCIM

/-! ### Job and script harness (extras/scripts.py, core/choices.py) -/

/-- Job status choices, from `core/choices.py` (`JobStatusChoices`). -/
inductive JobStatus
  | pending
  | scheduled
  | running
  | completed
  | errored
  | failed
  deriving DecidableEq, Repr

/-- Script log levels, from `LogLevelChoices` (default/success/info/warning/failure). -/
inductive LogLevel
  | debug
  | success
  | info
  | warning
  | failure
  deriving DecidableEq, Repr

/-- A script log entry: a level together with the message text. -/
abbrev LogEntry := LogLevel × String

/-- An exception escaping `Script.run`: the `AbortTransaction` sentinel (which
the inner handler of `run_script` catches), the `AbortScript` exception
(matched by `type(e) is AbortScript`), or any other exception type, carrying
its type name and message. -/
inductive ScriptErr
  | abortTransaction
  | abortScript (msg : String)
  | other (name msg : String)
  deriving DecidableEq, Repr

/-- The data serialized onto the job by `ScriptOutputSerializer(script).data`:
the script output and its accumulated log. -/
structure ScriptData (Out : Type) where
  output : Option Out
  log : List LogEntry
  deriving DecidableEq

/-- The job record fields relevant to `run_script`: its status and serialized data.
Modelled from the spec: the `Job` model (core jobs model, not under src/) carries a
status and a JSON data field; `start()` marks it running and `terminate(status)`
records the final status, defaulting to completed. -/
structure Job (Out : Type) where
  status : JobStatus
  data : Option (ScriptData Out)
  deriving DecidableEq

/-- `Job.start`: mark the job as running. -/
def Job.start {Out : Type} (j : Job Out) : Job Out :=
  { j with status := JobStatus.running }

/-- `Job.terminate`: record the final status (Python default is completed;
the status argument is passed explicitly here). -/
def Job.terminate {Out : Type} (j : Job Out) (status : JobStatus) : Job Out :=
  { j with status := status }

/-- The observable outcome of `run_script`: the database state, the job record,
and the script's log and output attributes. -/
structure RunScriptResult (δ Out : Type) where
  db : δ
  job : Job Out
  script_log : List LogEntry
  script_output : Option Out

/-- `run_script` from `extras/scripts.py`. The script body `Script.run` is a
parameter: from a database state it produces the updated database state, the log
entries the script itself emitted, and either its output or an exception.

Mirrors `_run_script`: the body runs inside `transaction.atomic()`; when
`commit` is false an `AbortTransaction` is raised after a successful run, rolling
the database back and logging "Database changes have been reverted automatically".
An `AbortTransaction` raised by the body itself is caught by the same inner
handler: the database rolls back, the same info entry is logged, and the job
terminates with the default completed status. Any other exception rolls the
transaction back, logs a failure entry (specialized for `AbortScript`), logs
"Database changes have been reverted due to error", and terminates the job with
status errored. In every case the serialized script data is stored on the job
and no exception escapes. -/
def run_script {δ Out : Type} (run : δ → δ × List LogEntry × Except ScriptErr Out)
    (commit : Bool) (db0 : δ) (job0 : Job Out) : RunScriptResult δ Out :=
  let job1 := Job.start job0
  match run db0 with
  | (db1, runLog, Except.ok out) =>
    if commit then
      let data : ScriptData Out := { output := some out, log := runLog }
      { db := db1, script_log := runLog, script_output := some out,
        job := Job.terminate { job1 with data := some data } JobStatus.completed }
    else
      let log := runLog ++ [(LogLevel.info, "Database changes have been reverted automatically.")]
      let data : ScriptData Out := { output := some out, log := log }
      { db := db0, script_log := log, script_output := some out,
        job := Job.terminate { job1 with data := some data } JobStatus.completed }
  | (_, runLog, Except.error ScriptErr.abortTransaction) =>
    let log := runLog ++ [(LogLevel.info, "Database changes have been reverted automatically.")]
    let data : ScriptData Out := { output := none, log := log }
    { db := db0, script_log := log, script_output := none,
      job := Job.terminate { job1 with data := some data } JobStatus.completed }
  | (_, runLog, Except.error (ScriptErr.abortScript msg)) =>
    let log := runLog ++ [(LogLevel.failure, "Script aborted with error: " ++ msg),
      (LogLevel.info, "Database changes have been reverted due to error.")]
    let data : ScriptData Out := { output := none, log := log }
    { db := db0, script_log := log, script_output := none,
      job := Job.terminate { job1 with data := some data } JobStatus.errored }
  | (_, runLog, Except.error (ScriptErr.other name msg)) =>
    let log := runLog ++ [(LogLevel.failure, "An exception occurred: " ++ name ++ ": " ++ msg),
      (LogLevel.info, "Database changes have been reverted due to error.")]
    let data : ScriptData Out := { output := none, log := log }
    { db := db0, script_log := log, script_output := none,
      job := Job.terminate { job1 with data := some data } JobStatus.errored }

/-! ### VLAN groups and VLANs (ipam/models/vlans.py) -/

/-- The fields of `VLANGroup` relevant to VID availability and VLAN validation:
the minimum/maximum child VID bounds and the group scope (modelled by an
optional scope object identifier). -/
structure VLANGroup where
  min_vid : Nat
  max_vid : Nat
  scope : Option Nat
  deriving DecidableEq

/-- `VLANGroup.get_available_vids`: all VIDs in `[min_vid, max_vid]` not used by
a VLAN of the group, sorted ascending. The group's VLAN queryset is modelled by
the list `used` of VIDs of VLANs assigned to the group. -/
def VLANGroup.get_available_vids (g : VLANGroup) (used : List Nat) : List Nat :=
  (List.range' g.min_vid (g.max_vid + 1 - g.min_vid)).filter (fun v => decide (v ∉ used))

/-- `VLANGroup.get_next_available_vid`: the first available VID in the group,
or `none` when there is none. -/
def VLANGroup.get_next_available_vid (g : VLANGroup) (used : List Nat) : Option Nat :=
  (g.get_available_vids used).head?

/-- The fields of `VLAN` relevant to `VLAN.clean`: optional group, optional site
(modelled by the site object identifier), and the VID. -/
structure VLAN where
  group : Option VLANGroup
  site : Option Nat
  vid : Nat

/-- `VLAN.clean` from `ipam/models/vlans.py`: raises when the VLAN is assigned
both to a scoped group whose scope differs from the VLAN's site, and when a
group is assigned but the VID lies outside the group's `[min_vid, max_vid]`
range. -/
def VLAN.clean (v : VLAN) : Except String Unit :=
  match v.group, v.site with
  | some g, some s =>
    if g.scope ≠ some s then
      Except.error "VLAN is assigned to group (scope); cannot also assign to site."
    else if ¬ (g.min_vid ≤ v.vid ∧ v.vid ≤ g.max_vid) then
      Except.error "VID must be between min_vid and max_vid for VLANs in group"
    else
      Except.ok ()
  | some g, none =>
    if ¬ (g.min_vid ≤ v.vid ∧ v.vid ≤ g.max_vid) then
      Except.error "VID must be between min_vid and max_vid for VLANs in group"
    else
      Except.ok ()
  | none, _ => Except.ok ()

/-! ### Search cache backend (netbox/search/backends.py) -/

/-- A row of the `CachedValue` table: the indexed object (content type id and
object id), the indexed field name, its search weight, and the cached value. -/
structure CachedValue where
  object_type : Nat
  object_id : Nat
  field : String
  weight : Nat
  value : String
  deriving DecidableEq, Repr

/-- `MAX_RESULTS` from `netbox/search/backends.py`. -/
def MAX_RESULTS : Nat := 1000

/-- Number of rows of `matched` ordered before the row `cv` (sitting at position
`i`) within its window partition: same object type and object id, and lower
weight, ties broken by row position. This models the SQL
`ROW_NUMBER() OVER (PARTITION BY object_type, object_id ORDER BY weight ASC)`
used by `CachedValueSearchBackend.search`, with the tie order made explicit. -/
def rowsBefore (matched : List CachedValue) (i : Nat) (cv : CachedValue) : Nat :=
  ((List.finRange matched.length).filter (fun j =>
    decide ((matched.get j).object_type = cv.object_type ∧
      (matched.get j).object_id = cv.object_id ∧
      ((matched.get j).weight < cv.weight ∨
        ((matched.get j).weight = cv.weight ∧ j.val < i))))).length

/-- The window rank of the row at position `i`: `1 +` the number of rows ordered
before it in its partition. -/
def rowNumber (matched : List CachedValue) (i : Nat) (cv : CachedValue) : Nat :=
  1 + rowsBefore matched i cv

/-- The matched rows annotated with their window rank, in table order. -/
def annotateRows (matched : List CachedValue) : List (CachedValue × Nat) :=
  (List.finRange matched.length).map
    (fun i => (matched.get i, rowNumber matched i.val (matched.get i)))

/-- `CachedValueSearchBackend.search`. The value/lookup query filter is the
predicate `query`; `permitted ct pk` models `r.object is not None` after the
`RestrictedPrefetch`, i.e. that the requesting user may view the object (and it
still exists). The pipeline mirrors the Python: filter, annotate ROW_NUMBER,
apply the `[:MAX_RESULTS]` slice, keep rank-1 rows, then drop unviewable
objects. -/
def search (table : List CachedValue) (query : CachedValue → Bool)
    (permitted : Nat → Nat → Bool) : List CachedValue :=
  ((((annotateRows (table.filter query)).take MAX_RESULTS).filter
      (fun p => p.2 == 1)).map Prod.fst).filter
    (fun cv => permitted cv.object_type cv.object_id)

/-! ### Search cache signal handlers (netbox/search/backends.py) -/

/-- A field produced by an indexer for caching: name, weight, and value. -/
structure CacheField where
  name : String
  weight : Nat
  value : String
  deriving DecidableEq

/-- The model store and search cache together: the set of live objects
(content type id, object id) and the rows of the `CachedValue` table. -/
structure SyncState where
  alive : List (Nat × Nat)
  cache : List CachedValue
  deriving DecidableEq

/-- A model-store event observed by the signal handlers: a save (post_save,
with the `created` flag and the field values the indexer yields for the saved
instance) or a delete (post_delete). -/
inductive ModelEvent
  | save (ct pk : Nat) (fields : List CacheField) (created : Bool)
  | delete (ct pk : Nat)

/-- Delete all cached rows for the given object (the queryset
`CachedValue.objects.filter(object_type=ct, object_id=pk)._raw_delete()`). -/
def removeCached (ct pk : Nat) (cache : List CachedValue) : List CachedValue :=
  cache.filter (fun e => decide (¬ (e.object_type = ct ∧ e.object_id = pk)))

/-- `SearchBackend.cache` for a single saved instance: a no-op when no indexer
is registered for the content type; otherwise wipe any previously cached rows
when `remove_existing` and bulk-create the rows the indexer yields. -/
def cacheInstance (indexable : Nat → Bool) (ct pk : Nat) (fields : List CacheField)
    (remove_existing : Bool) (cache : List CachedValue) : List CachedValue :=
  if indexable ct then
    (if remove_existing then removeCached ct pk cache else cache) ++
      fields.map (fun f =>
        { object_type := ct, object_id := pk, field := f.name,
          weight := f.weight, value := f.value })
  else cache

/-- `SearchBackend.remove`: a no-op when no indexer is registered for the
content type; otherwise delete all cached rows of the instance. -/
def removeInstance (indexable : Nat → Bool) (ct pk : Nat)
    (cache : List CachedValue) : List CachedValue :=
  if indexable ct then removeCached ct pk cache else cache

/-- One step of the signal machinery: a save makes the object live and fires
`caching_handler` (which calls `cache` with `remove_existing = not created`);
a delete removes the object and fires `removal_handler` (which calls
`remove`). -/
def applyEvent (indexable : Nat → Bool) (st : SyncState) : ModelEvent → SyncState
  | ModelEvent.save ct pk fields created =>
    { alive := if (ct, pk) ∈ st.alive then st.alive else (ct, pk) :: st.alive,
      cache := cacheInstance indexable ct pk fields (! created) st.cache }
  | ModelEvent.delete ct pk =>
    { alive := st.alive.filter (fun p => decide (p ≠ (ct, pk))),
      cache := removeInstance indexable ct pk st.cache }

/-- Run a sequence of model events from the empty store with an empty cache. -/
def runEvents (indexable : Nat → Bool) (events : List ModelEvent) : SyncState :=
  events.foldl (applyEvent indexable) { alive := [], cache := [] }

/-- The cache refers only to live objects of indexable content types. -/
def cacheConsistent (indexable : Nat → Bool) (st : SyncState) : Prop :=
  ∀ e ∈ st.cache, (e.object_type, e.object_id) ∈ st.alive ∧ indexable e.object_type = true

/-! ### Bulk import form (utilities/forms/bulk_import.py) -/

/-- `ImportFormatChoices` (the AUTO choice resolves to one of the others). -/
inductive ImportFormat
  | auto
  | csv
  | json
  | yaml
  deriving DecidableEq, Repr

/-- The first line of the data: `data.split(chr(10), 1)[0]`. -/
def firstLine (data : List Char) : List Char :=
  data.takeWhile (fun c => c ≠ '\n')

/-- `BulkImportForm._detect_format`: JSON when the first character is a brace or
bracket, else YAML when the data starts with three dashes or a dash-space, else
CSV when the first line contains a comma; empty data hits the `IndexError`
branch. Any other case is a `ValidationError` (modelled by `Except.error`). -/
def BulkImportForm.detect_format (data : List Char) : Except String ImportFormat :=
  match data with
  | [] => Except.error "Unable to detect data format. Please specify."
  | c :: rest =>
    if c = '{' ∨ c = '[' then Except.ok ImportFormat.json
    else if ([Char.ofNat 45, Char.ofNat 45, Char.ofNat 45].isPrefixOf (c :: rest)) ∨
        ([Char.ofNat 45, ' '].isPrefixOf (c :: rest)) then Except.ok ImportFormat.yaml
    else if ',' ∈ firstLine (c :: rest) then Except.ok ImportFormat.csv
    else Except.error "Unable to detect data format. Please specify."

/-- A parsed JSON value, the possible results of `json.loads`. -/
inductive JValue
  | null
  | bool (b : Bool)
  | num (n : Int)
  | str (s : String)
  | arr (elems : List JValue)
  | obj (fields : List (String × JValue))

/-- `BulkImportForm._clean_json`. The library call `json.loads` is abstracted
by its outcome `parsed`: `Except.error err` models a raised `JSONDecodeError`
with message `err`, `Except.ok v` a successful parse. A parsed list is returned
as is, any other value is wrapped in a singleton list, and a decode error
becomes a `ValidationError` on the data field. -/
def BulkImportForm.clean_json (parsed : Except String JValue) :
    Except String (List JValue) :=
  match parsed with
  | Except.error err => Except.error ("Invalid JSON data: " ++ err)
  | Except.ok (JValue.arr elems) => Except.ok elems
  | Except.ok v => Except.ok [v]

/-! ### Cable path nodes (dcim/utils.py) -/

/-- The character of a decimal digit (0 ↦ the character 0, …, 9 ↦ 9). -/
def decDigit (d : Nat) : Char := Char.ofNat (48 + d)

/-- Decimal digit characters of a natural number, most significant first:
the Python f-string rendering of a non-negative int. -/
def natRepr (n : Nat) : List Char :=
  if n = 0 then ['0'] else (Nat.digits 10 n).reverse.map decDigit

/-- Python `int()` on a string of decimal digits; `none` models `ValueError`.
(Sign characters and surrounding whitespace never occur in path nodes.) -/
def parseNat (l : List Char) : Option Nat :=
  if l = [] then none
  else if l.all Char.isDigit then
    some (l.foldl (fun a c => 10 * a + (c.toNat - 48)) 0)
  else none

/-- Python `str.split` on a colon separator. -/
def splitColon : List Char → List (List Char)
  | [] => [[]]
  | c :: rest =>
    match splitColon rest with
    | [] => [[]]
    | h :: t => if c = ':' then [] :: h :: t else (c :: h) :: t

/-- `compile_path_node`: render a path node as the string `ct_id:object_id`. -/
def compile_path_node (ct_id object_id : Nat) : List Char :=
  natRepr ct_id ++ ':' :: natRepr object_id

/-- `decompile_path_node`: split on the colon into exactly two parts (the tuple
unpacking raises otherwise, modelled by `none`) and parse both as ints. -/
def decompile_path_node (r : List Char) : Option (Nat × Nat) :=
  match splitColon r with
  | [a, b] =>
    match parseNat a, parseNat b with
    | some x, some y => some (x, y)
    | _, _ => none
  | _ => none

/-! ### Interface form validation (dcim/forms/common.py) -/

/-- `InterfaceModeChoices`: access, tagged, tagged-all. -/
inductive InterfaceMode
  | access
  | tagged
  | taggedAll
  deriving DecidableEq, Repr

/-- A VLAN offered for tagging, reduced to its optional site (by site id). -/
structure TaggedVLAN where
  site : Option Nat
  name : String
  deriving DecidableEq

/-- `InterfaceCommonForm.clean`: an access interface may not carry tagged
VLANs; a tagged-all interface has its tagged VLAN assignment replaced by the
empty list; on a tagged interface every tagged VLAN must be global (no site) or
belong to the parent device/VM site (`parentSite`). Returns the (possibly
updated) tagged VLAN assignment. -/
def InterfaceCommonForm.clean (mode : InterfaceMode) (parentSite : Option Nat)
    (tagged_vlans : List TaggedVLAN) : Except String (List TaggedVLAN) :=
  if mode = InterfaceMode.access ∧ tagged_vlans ≠ [] then
    Except.error "An access interface cannot have tagged VLANs assigned."
  else if mode = InterfaceMode.taggedAll then
    Except.ok []
  else if mode = InterfaceMode.tagged ∧ tagged_vlans ≠ [] then
    if tagged_vlans.filter (fun v => decide (v.site ≠ none ∧ v.site ≠ parentSite)) ≠ [] then
      Except.error "The tagged VLANs must belong to the same site as the parent device, or be global"
    else Except.ok tagged_vlans
  else Except.ok tagged_vlans

/-! ### Concrete instances used by witnesses -/

/-- A script body for witnesses: adds 7 to the database counter, logs one line,
returns output 42. -/
def demoRunOk : Nat → Nat × List LogEntry × Except ScriptErr Nat :=
  fun n => (n + 7, [(LogLevel.info, "hi")], Except.ok 42)

/-- A script body for witnesses that raises a generic exception. -/
def demoRunErr : Nat → Nat × List LogEntry × Except ScriptErr Unit :=
  fun n => (n + 1, [], Except.error (ScriptErr.other "Exception" "boom"))

/-- A script body that raises `AbortTransaction`, for the C1 counterexample. -/
def demoRunAbortT : Nat → Nat × List LogEntry × Except ScriptErr Unit :=
  fun n => (n + 1, [], Except.error ScriptErr.abortTransaction)

/-- A pending job carrying numeric output, for witnesses. -/
def demoJobN : Job Nat := { status := JobStatus.pending, data := none }

/-- A pending job carrying unit output, for witnesses. -/
def demoJobU : Job Unit := { status := JobStatus.pending, data := none }

/-- A concrete cached value, for witnesses. -/
def demoCV : CachedValue :=
  { object_type := 1, object_id := 5, field := "name", weight := 100, value := "foo" }

/-! ## Theorems -/

/-- Head of a strictly sorted list of naturals is its unique minimum. -/
theorem head?_sorted_iff_min (l : List Nat) (hs : l.Sorted (· < ·)) (v : Nat) :
    l.head? = some v ↔ v ∈ l ∧ ∀ w ∈ l, v ≤ w := by
  cases l with
  | nil => simp
  | cons a t =>
    simp only [List.head?_cons, Option.some.injEq, List.mem_cons]
    constructor
    · rintro rfl
      refine ⟨Or.inl rfl, ?_⟩
      intro w hw
      rcases hw with rfl | hw
      · exact le_refl w
      · exact le_of_lt ((List.pairwise_cons.mp hs).1 w hw)
    · rintro ⟨hv, hmin⟩
      rcases hv with rfl | hv
      · rfl
      · have h1 : a < v := (List.pairwise_cons.mp hs).1 v hv
        have h2 : v ≤ a := hmin a (Or.inl rfl)
        omega

/-- C1 counterexample: a script body raising `AbortTransaction` is caught by
the inner handler of `run_script`: the database is rolled back, but the job
terminates completed — not errored — and no failure entry is logged, refuting
the claim that every exception from the script body yields a failure log entry
and an errored job. -/
theorem run_script_error_claim_counterexample :
    (run_script demoRunAbortT true 0 demoJobU).db = 0 ∧
    (run_script demoRunAbortT true 0 demoJobU).job.status = JobStatus.completed ∧
    (run_script demoRunAbortT true 0 demoJobU).job.status ≠ JobStatus.errored ∧
    ∀ m, (LogLevel.failure, m) ∉ (run_script demoRunAbortT true 0 demoJobU).script_log := by
  refine ⟨rfl, rfl, fun hc => JobStatus.noConfusion hc, ?_⟩
  intro m hm
  have hlog : (run_script demoRunAbortT true 0 demoJobU).script_log =
      [(LogLevel.info, "Database changes have been reverted automatically.")] := rfl
  rw [hlog] at hm
  simp at hm

/-- C1 (amended): if the script body raises any exception other than
`AbortTransaction`, `run_script` leaves the database in its pre-run state,
records a failure entry in the script log, and terminates the job with status
errored; a script-raised `AbortTransaction` also rolls the database back, but
is caught by the inner handler: only an info entry is logged and the job
terminates with the normal completed status. In both cases `run_script`, a
total function of the embedding, returns normally rather than propagating the
exception. -/
theorem run_script_error_spec {δ Out : Type}
    (run : δ → δ × List LogEntry × Except ScriptErr Out) (commit : Bool)
    (db0 : δ) (job0 : Job Out) (db1 : δ) (runLog : List LogEntry) (e : ScriptErr)
    (h : run db0 = (db1, runLog, Except.error e)) :
    (run_script run commit db0 job0).db = db0 ∧
    (e ≠ ScriptErr.abortTransaction →
      (∃ m, (LogLevel.failure, m) ∈ (run_script run commit db0 job0).script_log) ∧
      (run_script run commit db0 job0).job.status = JobStatus.errored) ∧
    (e = ScriptErr.abortTransaction →
      (LogLevel.info, "Database changes have been reverted automatically.") ∈
        (run_script run commit db0 job0).script_log ∧
      (run_script run commit db0 job0).job.status = JobStatus.completed) := by
  unfold run_script
  rw [h]
  cases e with
  | abortTransaction =>
    refine ⟨rfl, fun hne => absurd rfl hne, fun _ => ⟨?_, rfl⟩⟩
    simp
  | abortScript msg =>
    refine ⟨rfl, fun _ => ⟨⟨"Script aborted with error: " ++ msg, ?_⟩, rfl⟩,
      fun he => ScriptErr.noConfusion he⟩
    simp
  | other name msg =>
    refine ⟨rfl, fun _ => ⟨⟨"An exception occurred: " ++ name ++ ": " ++ msg, ?_⟩, rfl⟩,
      fun he => ScriptErr.noConfusion he⟩
    simp

/-- Witness for C1 at a concrete script raising a generic exception. -/
theorem run_script_error_spec_witness :
    (run_script demoRunErr true 0 demoJobU).db = 0 ∧
    (ScriptErr.other "Exception" "boom" ≠ ScriptErr.abortTransaction →
      (∃ m, (LogLevel.failure, m) ∈ (run_script demoRunErr true 0 demoJobU).script_log) ∧
      (run_script demoRunErr true 0 demoJobU).job.status = JobStatus.errored) ∧
    (ScriptErr.other "Exception" "boom" = ScriptErr.abortTransaction →
      (LogLevel.info, "Database changes have been reverted automatically.") ∈
        (run_script demoRunErr true 0 demoJobU).script_log ∧
      (run_script demoRunErr true 0 demoJobU).job.status = JobStatus.completed) :=
  run_script_error_spec demoRunErr true 0 demoJobU 1 []
    (ScriptErr.other "Exception" "boom") rfl

/-- C2: with `commit = False` and a successfully completing script body,
`run_script` reverts every database change, still records the script output and
log on the job, and terminates the job with the normal completed status, which
is not errored. -/
theorem run_script_no_commit_spec {δ Out : Type}
    (run : δ → δ × List LogEntry × Except ScriptErr Out)
    (db0 : δ) (job0 : Job Out) (db1 : δ) (runLog : List LogEntry) (out : Out)
    (h : run db0 = (db1, runLog, Except.ok out)) :
    (run_script run false db0 job0).db = db0 ∧
    (run_script run false db0 job0).script_output = some out ∧
    (run_script run false db0 job0).job.data =
      some { output := some out, log := (run_script run false db0 job0).script_log } ∧
    (∀ entry ∈ runLog, entry ∈ (run_script run false db0 job0).script_log) ∧
    (run_script run false db0 job0).job.status = JobStatus.completed ∧
    (run_script run false db0 job0).job.status ≠ JobStatus.errored := by
  unfold run_script
  rw [h]
  exact ⟨rfl, rfl, rfl, fun entry he => List.mem_append.mpr (Or.inl he), rfl,
    fun hc => JobStatus.noConfusion hc⟩

/-- Witness for C2 at a concrete successful script. -/
theorem run_script_no_commit_spec_witness :
    (run_script demoRunOk false 5 demoJobN).db = 5 ∧
    (run_script demoRunOk false 5 demoJobN).script_output = some 42 ∧
    (run_script demoRunOk false 5 demoJobN).job.data =
      some { output := some 42, log := (run_script demoRunOk false 5 demoJobN).script_log } ∧
    (∀ entry ∈ [(LogLevel.info, "hi")], entry ∈
      (run_script demoRunOk false 5 demoJobN).script_log) ∧
    (run_script demoRunOk false 5 demoJobN).job.status = JobStatus.completed ∧
    (run_script demoRunOk false 5 demoJobN).job.status ≠ JobStatus.errored :=
  run_script_no_commit_spec demoRunOk 5 demoJobN 12 [(LogLevel.info, "hi")] 42 rfl

/-- C3: `get_available_vids` returns exactly the VIDs of `[min_vid, max_vid]`
unused in the group, sorted ascending; `get_next_available_vid` returns the
smallest such VID and `none` exactly when every VID of the range is used. -/
theorem VLANGroup_available_vids_spec (g : VLANGroup) (used : List Nat) :
    (∀ v : Nat, v ∈ g.get_available_vids used ↔
      (g.min_vid ≤ v ∧ v ≤ g.max_vid ∧ v ∉ used)) ∧
    (g.get_available_vids used).Sorted (· < ·) ∧
    (∀ v : Nat, g.get_next_available_vid used = some v ↔
      (g.min_vid ≤ v ∧ v ≤ g.max_vid ∧ v ∉ used ∧
        ∀ w : Nat, g.min_vid ≤ w → w ≤ g.max_vid → w ∉ used → v ≤ w)) ∧
    (g.get_next_available_vid used = none ↔
      ∀ v : Nat, g.min_vid ≤ v → v ≤ g.max_vid → v ∈ used) := by
  have hmem : ∀ v : Nat, v ∈ g.get_available_vids used ↔
      (g.min_vid ≤ v ∧ v ≤ g.max_vid ∧ v ∉ used) := by
    intro v
    unfold VLANGroup.get_available_vids
    rw [List.mem_filter, List.mem_range'_1]
    simp only [decide_eq_true_eq]
    constructor
    · rintro ⟨⟨h1, h2⟩, h3⟩
      exact ⟨h1, by omega, h3⟩
    · rintro ⟨h1, h2, h3⟩
      exact ⟨⟨h1, by omega⟩, h3⟩
  have hsorted : (g.get_available_vids used).Sorted (· < ·) :=
    List.Sorted.filter _ (List.pairwise_lt_range' _ _)
  refine ⟨hmem, hsorted, ?_, ?_⟩
  · intro v
    unfold VLANGroup.get_next_available_vid
    rw [head?_sorted_iff_min _ hsorted]
    constructor
    · rintro ⟨hv, hmin⟩
      obtain ⟨h1, h2, h3⟩ := (hmem v).mp hv
      exact ⟨h1, h2, h3, fun w hw1 hw2 hw3 => hmin w ((hmem w).mpr ⟨hw1, hw2, hw3⟩)⟩
    · rintro ⟨h1, h2, h3, hmin⟩
      refine ⟨(hmem v).mpr ⟨h1, h2, h3⟩, ?_⟩
      intro w hw
      obtain ⟨hw1, hw2, hw3⟩ := (hmem w).mp hw
      exact hmin w hw1 hw2 hw3
  · unfold VLANGroup.get_next_available_vid
    rw [List.head?_eq_none_iff]
    constructor
    · intro hnil v h1 h2
      by_contra h3
      have := (hmem v).mpr ⟨h1, h2, h3⟩
      rw [hnil] at this
      exact absurd this (List.not_mem_nil v)
    · intro hall
      by_contra hne
      obtain ⟨v, hv⟩ := List.exists_mem_of_ne_nil _ hne
      obtain ⟨h1, h2, h3⟩ := (hmem v).mp hv
      exact h3 (hall v h1 h2)

/-- Witness for C3 at a concrete group. -/
theorem VLANGroup_available_vids_spec_witness :
    (∀ v : Nat, v ∈ VLANGroup.get_available_vids ⟨2, 5, none⟩ [3] ↔
      (2 ≤ v ∧ v ≤ 5 ∧ v ∉ [3])) ∧
    (VLANGroup.get_available_vids ⟨2, 5, none⟩ [3]).Sorted (· < ·) ∧
    (∀ v : Nat, VLANGroup.get_next_available_vid ⟨2, 5, none⟩ [3] = some v ↔
      (2 ≤ v ∧ v ≤ 5 ∧ v ∉ [3] ∧
        ∀ w : Nat, 2 ≤ w → w ≤ 5 → w ∉ [3] → v ≤ w)) ∧
    (VLANGroup.get_next_available_vid ⟨2, 5, none⟩ [3] = none ↔
      ∀ v : Nat, 2 ≤ v → v ≤ 5 → v ∈ [3]) :=
  VLANGroup_available_vids_spec ⟨2, 5, none⟩ [3]

/-- C9: a VLAN whose `clean` succeeds while a group is assigned satisfies the
group's VID bounds, and `clean` raises whenever a group is assigned and the VID
lies outside `[min_vid, max_vid]`. -/
theorem VLAN_clean_group_vid_bounds (v : VLAN) (g : VLANGroup) (hg : v.group = some g) :
    (v.clean = Except.ok () → g.min_vid ≤ v.vid ∧ v.vid ≤ g.max_vid) ∧
    (¬ (g.min_vid ≤ v.vid ∧ v.vid ≤ g.max_vid) → ∃ msg, v.clean = Except.error msg) := by
  obtain ⟨grp, site, vid⟩ := v
  change grp = some g at hg
  subst hg
  cases site with
  | none =>
    by_cases hb : g.min_vid ≤ vid ∧ vid ≤ g.max_vid
    · simp only [VLAN.clean, if_neg (not_not_intro hb)]
      exact ⟨fun _ => hb, fun hn => absurd hb hn⟩
    · simp only [VLAN.clean, if_pos hb]
      exact ⟨fun h => Except.noConfusion h, fun _ => ⟨_, rfl⟩⟩
  | some s =>
    by_cases hs : g.scope ≠ some s
    · simp only [VLAN.clean, if_pos hs]
      exact ⟨fun h => Except.noConfusion h, fun _ => ⟨_, rfl⟩⟩
    · by_cases hb : g.min_vid ≤ vid ∧ vid ≤ g.max_vid
      · simp only [VLAN.clean, if_neg hs, if_neg (not_not_intro hb)]
        exact ⟨fun _ => hb, fun hn => absurd hb hn⟩
      · simp only [VLAN.clean, if_neg hs, if_pos hb]
        exact ⟨fun h => Except.noConfusion h, fun _ => ⟨_, rfl⟩⟩

/-- C5: with format AUTO, the format is detected from the data alone: JSON when
the first character is a brace or bracket, otherwise YAML when the data starts
with three dashes or a dash and space, otherwise CSV when the first line
contains a comma, and in every other case (including empty data) a
ValidationError asking the user to specify the format. -/
theorem detect_format_spec (data : List Char) :
    (BulkImportForm.detect_format data = Except.ok ImportFormat.json ↔
      (data.head? = some '{' ∨ data.head? = some '[')) ∧
    (BulkImportForm.detect_format data = Except.ok ImportFormat.yaml ↔
      (¬ (data.head? = some '{' ∨ data.head? = some '[') ∧
        ([Char.ofNat 45, Char.ofNat 45, Char.ofNat 45].isPrefixOf data = true ∨
          [Char.ofNat 45, ' '].isPrefixOf data = true))) ∧
    (BulkImportForm.detect_format data = Except.ok ImportFormat.csv ↔
      (¬ (data.head? = some '{' ∨ data.head? = some '[') ∧
        ¬ ([Char.ofNat 45, Char.ofNat 45, Char.ofNat 45].isPrefixOf data = true ∨
          [Char.ofNat 45, ' '].isPrefixOf data = true) ∧
        ',' ∈ firstLine data)) ∧
    ((∃ msg, BulkImportForm.detect_format data = Except.error msg) ↔
      (¬ (data.head? = some '{' ∨ data.head? = some '[') ∧
        ¬ ([Char.ofNat 45, Char.ofNat 45, Char.ofNat 45].isPrefixOf data = true ∨
          [Char.ofNat 45, ' '].isPrefixOf data = true) ∧
        ¬ (',' ∈ firstLine data))) := by
  cases data with
  | nil =>
    refine ⟨?_, ?_, ?_, ?_⟩
    · exact ⟨fun h => Except.noConfusion h,
        fun hor => by rcases hor with h | h <;> exact Option.noConfusion h⟩
    · exact ⟨fun h => Except.noConfusion h,
        fun hp => by rcases hp.2 with h | h <;> exact absurd h (by decide)⟩
    · exact ⟨fun h => Except.noConfusion h, fun hp => absurd hp.2.2 (by decide)⟩
    · refine ⟨fun _ => ⟨fun hor => by rcases hor with h | h <;> exact Option.noConfusion h,
        fun hy => by rcases hy with h | h <;> exact absurd h (by decide), by decide⟩, ?_⟩
      intro _
      exact ⟨"Unable to detect data format. Please specify.", rfl⟩
  | cons c rest =>
    simp only [BulkImportForm.detect_format, List.head?_cons]
    split_ifs with h1 h2 h3
    · refine ⟨⟨fun _ => by simpa using h1, fun _ => rfl⟩, ?_, ?_, ?_⟩
      · exact ⟨fun h => ImportFormat.noConfusion (Except.ok.inj h),
          fun hp => absurd (by simpa using h1) hp.1⟩
      · exact ⟨fun h => ImportFormat.noConfusion (Except.ok.inj h),
          fun hp => absurd (by simpa using h1) hp.1⟩
      · exact ⟨fun hex => absurd hex (by simp), fun hp => absurd (by simpa using h1) hp.1⟩
    · refine ⟨?_, ⟨fun _ => ⟨by simpa using h1, by simpa using h2⟩, fun _ => rfl⟩, ?_, ?_⟩
      · exact ⟨fun h => ImportFormat.noConfusion (Except.ok.inj h),
          fun hor => absurd (by simpa using hor) h1⟩
      · exact ⟨fun h => ImportFormat.noConfusion (Except.ok.inj h),
          fun hp => absurd (by simpa using h2) hp.2.1⟩
      · exact ⟨fun hex => absurd hex (by simp), fun hp => absurd (by simpa using h2) hp.2.1⟩
    · refine ⟨?_, ?_,
        ⟨fun _ => ⟨by simpa using h1, by simpa using h2, h3⟩, fun _ => rfl⟩, ?_⟩
      · exact ⟨fun h => ImportFormat.noConfusion (Except.ok.inj h),
          fun hor => absurd (by simpa using hor) h1⟩
      · exact ⟨fun h => ImportFormat.noConfusion (Except.ok.inj h),
          fun hp => absurd (by simpa using hp.2) h2⟩
      · exact ⟨fun hex => absurd hex (by simp), fun hp => absurd h3 hp.2.2⟩
    · refine ⟨?_, ?_, ?_,
        ⟨fun _ => ⟨by simpa using h1, by simpa using h2, h3⟩,
          fun _ => ⟨"Unable to detect data format. Please specify.", rfl⟩⟩⟩
      · exact ⟨fun h => absurd h (by simp), fun hor => absurd (by simpa using hor) h1⟩
      · exact ⟨fun h => absurd h (by simp), fun hp => absurd (by simpa using hp.2) h2⟩
      · exact ⟨fun h => absurd h (by simp), fun hp => absurd hp.2.2 h3⟩

/-- Witness for C5 at a concrete CSV-looking input. -/
theorem detect_format_spec_witness :
    (BulkImportForm.detect_format ['a', ',', 'b'] = Except.ok ImportFormat.json ↔
      (['a', ',', 'b'].head? = some '{' ∨ ['a', ',', 'b'].head? = some '[')) ∧
    (BulkImportForm.detect_format ['a', ',', 'b'] = Except.ok ImportFormat.yaml ↔
      (¬ (['a', ',', 'b'].head? = some '{' ∨ ['a', ',', 'b'].head? = some '[') ∧
        ([Char.ofNat 45, Char.ofNat 45, Char.ofNat 45].isPrefixOf ['a', ',', 'b'] = true ∨
          [Char.ofNat 45, ' '].isPrefixOf ['a', ',', 'b'] = true))) ∧
    (BulkImportForm.detect_format ['a', ',', 'b'] = Except.ok ImportFormat.csv ↔
      (¬ (['a', ',', 'b'].head? = some '{' ∨ ['a', ',', 'b'].head? = some '[') ∧
        ¬ ([Char.ofNat 45, Char.ofNat 45, Char.ofNat 45].isPrefixOf ['a', ',', 'b'] = true ∨
          [Char.ofNat 45, ' '].isPrefixOf ['a', ',', 'b'] = true) ∧
        ',' ∈ firstLine ['a', ',', 'b'])) ∧
    ((∃ msg, BulkImportForm.detect_format ['a', ',', 'b'] = Except.error msg) ↔
      (¬ (['a', ',', 'b'].head? = some '{' ∨ ['a', ',', 'b'].head? = some '[') ∧
        ¬ ([Char.ofNat 45, Char.ofNat 45, Char.ofNat 45].isPrefixOf ['a', ',', 'b'] = true ∨
          [Char.ofNat 45, ' '].isPrefixOf ['a', ',', 'b'] = true) ∧
        ¬ (',' ∈ firstLine ['a', ',', 'b']))) :=
  detect_format_spec ['a', ',', 'b']

/-- C6: `_clean_json` returns the parsed list when the input is a JSON array,
wraps any other parsed value in a one-element list, and raises a
ValidationError exactly when the input is not valid JSON. -/
theorem clean_json_spec :
    (∀ err : String, BulkImportForm.clean_json (Except.error err) =
      Except.error ("Invalid JSON data: " ++ err)) ∧
    (∀ elems : List JValue, BulkImportForm.clean_json (Except.ok (JValue.arr elems)) =
      Except.ok elems) ∧
    (∀ v : JValue, (∀ elems : List JValue, v ≠ JValue.arr elems) →
      BulkImportForm.clean_json (Except.ok v) = Except.ok [v]) ∧
    (∀ parsed : Except String JValue,
      (∃ msg, BulkImportForm.clean_json parsed = Except.error msg) ↔
        ∃ err, parsed = Except.error err) := by
  refine ⟨fun err => rfl, fun elems => rfl, ?_, ?_⟩
  · intro v hv
    cases v with
    | arr elems => exact absurd rfl (hv elems)
    | null => rfl
    | bool b => rfl
    | num n => rfl
    | str s => rfl
    | obj fields => rfl
  · intro parsed
    cases parsed with
    | error err =>
      exact ⟨fun _ => ⟨err, rfl⟩, fun _ => ⟨"Invalid JSON data: " ++ err, rfl⟩⟩
    | ok v =>
      constructor
      · rintro ⟨msg, hmsg⟩
        cases v <;> exact Except.noConfusion hmsg
      · rintro ⟨err, herr⟩
        exact Except.noConfusion herr

/-- Witness for C6 at a concrete non-list JSON value. -/
theorem clean_json_spec_witness :
    BulkImportForm.clean_json (Except.ok (JValue.num 3)) = Except.ok [JValue.num 3] :=
  clean_json_spec.2.2.1 (JValue.num 3) (fun _ h => JValue.noConfusion h)

/-- C10: `InterfaceCommonForm.clean` raises exactly when the mode is access with
a non-empty tagged VLAN set, or the mode is tagged and some tagged VLAN is
neither global nor in the parent device/VM site; with mode tagged-all it never
raises and replaces the tagged VLAN assignment with the empty list. -/
theorem InterfaceCommonForm_clean_spec (mode : InterfaceMode) (parentSite : Option Nat)
    (tagged_vlans : List TaggedVLAN) :
    ((∃ msg, InterfaceCommonForm.clean mode parentSite tagged_vlans = Except.error msg) ↔
      ((mode = InterfaceMode.access ∧ tagged_vlans ≠ []) ∨
        (mode = InterfaceMode.tagged ∧
          ∃ v ∈ tagged_vlans, v.site ≠ none ∧ v.site ≠ parentSite))) ∧
    (mode = InterfaceMode.taggedAll →
      InterfaceCommonForm.clean mode parentSite tagged_vlans = Except.ok []) := by
  constructor
  · unfold InterfaceCommonForm.clean
    split_ifs with h1 h2 h3 h4
    · exact ⟨fun _ => Or.inl h1, fun _ => ⟨_, rfl⟩⟩
    · subst h2
      constructor
      · rintro ⟨msg, hmsg⟩
        exact hmsg.elim
      · rintro (⟨hm, -⟩ | ⟨hm, -⟩) <;> exact InterfaceMode.noConfusion hm
    · constructor
      · intro _
        refine Or.inr ⟨h3.1, ?_⟩
        have := h4
        rw [Ne, List.filter_eq_nil_iff] at this
        push_neg at this
        obtain ⟨v, hv, hp⟩ := this
        rw [decide_eq_true_eq] at hp
        exact ⟨v, hv, hp⟩
      · intro _
        exact ⟨_, rfl⟩
    · constructor
      · rintro ⟨msg, hmsg⟩
        exact hmsg.elim
      · rintro (⟨hm, hne⟩ | ⟨hm, v, hv, hp⟩)
        · exact InterfaceMode.noConfusion (h3.1.symm.trans hm)
        · have : v ∈ tagged_vlans.filter (fun v => decide (v.site ≠ none ∧ v.site ≠ parentSite)) :=
            List.mem_filter.mpr ⟨hv, decide_eq_true hp⟩
          rw [not_ne_iff] at h4
          rw [h4] at this
          exact absurd this (List.not_mem_nil v)
    · constructor
      · rintro ⟨msg, hmsg⟩
        exact hmsg.elim
      · rintro (⟨hm, hne⟩ | ⟨hm, v, hv, hp⟩)
        · exact absurd ⟨hm, hne⟩ h1
        · have hnil : tagged_vlans = [] := by
            by_contra hne
            exact h3 ⟨hm, hne⟩
          rw [hnil] at hv
          exact absurd hv (List.not_mem_nil v)
  · intro hm
    subst hm
    unfold InterfaceCommonForm.clean
    rw [if_neg (fun hc => InterfaceMode.noConfusion hc.1), if_pos rfl]

/-- Witness for C10 at a concrete tagged interface with an off-site VLAN. -/
theorem InterfaceCommonForm_clean_spec_witness :
    ((∃ msg, InterfaceCommonForm.clean InterfaceMode.tagged (some 1)
        [{ site := some 2, name := "v" }] = Except.error msg) ↔
      ((InterfaceMode.tagged = InterfaceMode.access ∧
          ([{ site := some 2, name := "v" }] : List TaggedVLAN) ≠ []) ∨
        (InterfaceMode.tagged = InterfaceMode.tagged ∧
          ∃ v ∈ [({ site := some 2, name := "v" } : TaggedVLAN)],
            v.site ≠ none ∧ v.site ≠ some 1))) ∧
    (InterfaceMode.tagged = InterfaceMode.taggedAll →
      InterfaceCommonForm.clean InterfaceMode.tagged (some 1)
        [{ site := some 2, name := "v" }] = Except.ok []) :=
  InterfaceCommonForm_clean_spec InterfaceMode.tagged (some 1) [{ site := some 2, name := "v" }]

/-- The character of a decimal digit has the expected code point. -/
theorem decDigit_toNat (d : Nat) (h : d < 10) : (decDigit d).toNat = 48 + d := by
  interval_cases d <;> decide

/-- The character of a decimal digit is a digit. -/
theorem decDigit_isDigit (d : Nat) (h : d < 10) : (decDigit d).isDigit = true := by
  interval_cases d <;> decide

/-- The character of a decimal digit is not the colon. -/
theorem decDigit_ne_colon (d : Nat) (h : d < 10) : decDigit d ≠ ':' := by
  interval_cases d <;> decide

/-- The decimal rendering of a natural number contains no colon. -/
theorem natRepr_ne_colon (n : Nat) : ∀ c ∈ natRepr n, c ≠ ':' := by
  intro c hc
  unfold natRepr at hc
  split at hc
  · rw [List.mem_singleton] at hc
    subst hc
    decide
  · rw [List.mem_map] at hc
    obtain ⟨d, hd, rfl⟩ := hc
    exact decDigit_ne_colon d (Nat.digits_lt_base (by norm_num) (List.mem_reverse.mp hd))

/-- Splitting a colon-free string yields the single piece. -/
theorem splitColon_no_colon (l : List Char) (h : ∀ c ∈ l, c ≠ ':') :
    splitColon l = [l] := by
  induction l with
  | nil => rfl
  | cons c rest ih =>
    have hrest : splitColon rest = [rest] :=
      ih (fun x hx => h x (List.mem_cons_of_mem c hx))
    simp only [splitColon, hrest]
    rw [if_neg (h c (List.mem_cons_self c rest))]

/-- Splitting two colon-free pieces joined by a colon recovers the pieces. -/
theorem splitColon_append (a b : List Char) (ha : ∀ c ∈ a, c ≠ ':')
    (hb : ∀ c ∈ b, c ≠ ':') : splitColon (a ++ ':' :: b) = [a, b] := by
  induction a with
  | nil =>
    simp only [List.nil_append, splitColon, splitColon_no_colon b hb]
    simp
  | cons c a' ih =>
    have ha' : ∀ x ∈ a', x ≠ ':' := fun x hx => ha x (List.mem_cons_of_mem c hx)
    rw [List.cons_append]
    show (match splitColon (a' ++ ':' :: b) with
      | [] => [[]]
      | h :: t => if c = ':' then [] :: h :: t else (c :: h) :: t) = [c :: a', b]
    rw [ih ha']
    show (if c = ':' then [] :: a' :: [b] else (c :: a') :: [b]) = [c :: a', b]
    rw [if_neg (ha c (List.mem_cons_self c a'))]

/-- Folding the decimal parser over rendered digits recovers the value. -/
theorem foldl_decDigits (ds : List Nat) (hds : ∀ d ∈ ds, d < 10) (acc : Nat) :
    (ds.reverse.map decDigit).foldl (fun a c => 10 * a + (c.toNat - 48)) acc =
      acc * 10 ^ ds.length + Nat.ofDigits 10 ds := by
  induction ds generalizing acc with
  | nil => simp [Nat.ofDigits]
  | cons d tl ih =>
    have hd : d < 10 := hds d (List.mem_cons_self d tl)
    have htl : ∀ x ∈ tl, x < 10 := fun x hx => hds x (List.mem_cons_of_mem d hx)
    rw [List.reverse_cons, List.map_append, List.foldl_append, ih htl]
    simp only [List.map_cons, List.map_nil, List.foldl_cons, List.foldl_nil]
    rw [decDigit_toNat d hd, Nat.add_sub_cancel_left, Nat.ofDigits_cons, List.length_cons]
    ring

/-- Parsing the decimal rendering of a natural number recovers it. -/
theorem parseNat_natRepr (n : Nat) : parseNat (natRepr n) = some n := by
  by_cases h0 : n = 0
  · subst h0
    decide
  · have hds : ∀ d ∈ Nat.digits 10 n, d < 10 :=
      fun d hd => Nat.digits_lt_base (by norm_num) hd
    have hne : Nat.digits 10 n ≠ [] := Nat.digits_ne_nil_iff_ne_zero.mpr h0
    unfold natRepr parseNat
    rw [if_neg h0]
    have hlen : (Nat.digits 10 n).reverse.map decDigit ≠ [] := by
      simp [hne]
    rw [if_neg hlen]
    have hall : ((Nat.digits 10 n).reverse.map decDigit).all Char.isDigit = true := by
      rw [List.all_eq_true]
      intro c hc
      rw [List.mem_map] at hc
      obtain ⟨d, hd, rfl⟩ := hc
      exact decDigit_isDigit d (hds d (List.mem_reverse.mp hd))
    rw [if_pos hall, foldl_decDigits _ hds 0]
    simp [Nat.ofDigits_digits]

/-- C7: decompiling a compiled cable-path node is the identity: rendering a
(content type id, object id) pair as the colon-joined decimal string and
parsing it back returns the original pair. -/
theorem compile_decompile_path_node (ct_id object_id : Nat) :
    decompile_path_node (compile_path_node ct_id object_id) = some (ct_id, object_id) := by
  unfold compile_path_node decompile_path_node
  rw [splitColon_append _ _ (natRepr_ne_colon ct_id) (natRepr_ne_colon object_id)]
  simp only [parseNat_natRepr]

/-- Every annotated row is a matched row at some position, annotated with the
window rank computed at that position. -/
theorem mem_annotateRows {matched : List CachedValue} {p : CachedValue × Nat}
    (hp : p ∈ annotateRows matched) :
    ∃ i : Fin matched.length,
      matched.get i = p.1 ∧ rowNumber matched i.val (matched.get i) = p.2 := by
  unfold annotateRows at hp
  rw [List.mem_map] at hp
  obtain ⟨i, _, hi⟩ := hp
  exact ⟨i, congrArg Prod.fst hi, congrArg Prod.snd hi⟩

/-- A zero `rowsBefore` count means no row of the partition satisfies the
ordering condition. -/
theorem rowsBefore_eq_zero_not_cond {matched : List CachedValue} {i : Nat}
    {cv : CachedValue} (h : rowsBefore matched i cv = 0) (j : Fin matched.length) :
    ¬ ((matched.get j).object_type = cv.object_type ∧
      (matched.get j).object_id = cv.object_id ∧
      ((matched.get j).weight < cv.weight ∨
        ((matched.get j).weight = cv.weight ∧ j.val < i))) := by
  intro hc
  rw [rowsBefore, List.length_eq_zero, List.filter_eq_nil_iff] at h
  exact h j (List.mem_finRange j) (decide_eq_true hc)

/-- A rank-one row has minimal weight within its partition. -/
theorem rowsBefore_eq_zero_min {matched : List CachedValue} {i : Nat}
    {cv : CachedValue} (h : rowsBefore matched i cv = 0) :
    ∀ b ∈ matched, b.object_type = cv.object_type → b.object_id = cv.object_id →
      cv.weight ≤ b.weight := by
  intro b hb ht hid
  by_contra hlt
  push_neg at hlt
  rw [List.mem_iff_get] at hb
  obtain ⟨j, hj⟩ := hb
  refine rowsBefore_eq_zero_not_cond h j ?_
  rw [hj]
  exact ⟨ht, hid, Or.inl hlt⟩

/-- Two distinct positions of the same partition cannot both have rank one. -/
theorem rowNumber_one_unique {matched : List CachedValue} (i j : Fin matched.length)
    (hi : rowNumber matched i.val (matched.get i) = 1)
    (hj : rowNumber matched j.val (matched.get j) = 1)
    (ht : (matched.get i).object_type = (matched.get j).object_type)
    (hid : (matched.get i).object_id = (matched.get j).object_id) :
    i = j := by
  rw [rowNumber] at hi hj
  have hi0 : rowsBefore matched i.val (matched.get i) = 0 := by omega
  have hj0 : rowsBefore matched j.val (matched.get j) = 0 := by omega
  have w1 : ¬ ((matched.get j).weight < (matched.get i).weight ∨
      ((matched.get j).weight = (matched.get i).weight ∧ j.val < i.val)) :=
    fun hw => rowsBefore_eq_zero_not_cond hi0 j ⟨ht.symm, hid.symm, hw⟩
  have w2 : ¬ ((matched.get i).weight < (matched.get j).weight ∨
      ((matched.get i).weight = (matched.get j).weight ∧ i.val < j.val)) :=
    fun hw => rowsBefore_eq_zero_not_cond hj0 i ⟨ht, hid, hw⟩
  have hv : i.val = j.val := by omega
  exact Fin.ext hv

/-- Distinct annotated rank-one rows lie in distinct partitions. -/
theorem annotateRows_pairwise (matched : List CachedValue) :
    (annotateRows matched).Pairwise (fun p q =>
      p.2 = 1 → q.2 = 1 →
        ¬ (p.1.object_type = q.1.object_type ∧ p.1.object_id = q.1.object_id)) := by
  unfold annotateRows
  rw [List.pairwise_map]
  refine (List.pairwise_lt_finRange _).imp ?_
  intro i j hij hp hq hk
  have := rowNumber_one_unique i j hp hq hk.1 hk.2
  rw [this] at hij
  exact lt_irrefl j hij

/-- C4: `CachedValueSearchBackend.search` returns at most `MAX_RESULTS` (1000)
results, at most one result per object (object type and object id), namely a
matching cached value of lowest weight for that object, and every returned
result refers to an object the requesting user is permitted to view. -/
theorem search_spec (table : List CachedValue) (query : CachedValue → Bool)
    (permitted : Nat → Nat → Bool) :
    (search table query permitted).length ≤ MAX_RESULTS ∧
    (search table query permitted).Pairwise (fun a b =>
      ¬ (a.object_type = b.object_type ∧ a.object_id = b.object_id)) ∧
    (∀ cv ∈ search table query permitted,
      cv ∈ table.filter query ∧
      permitted cv.object_type cv.object_id = true ∧
      ∀ b ∈ table.filter query,
        b.object_type = cv.object_type → b.object_id = cv.object_id →
        cv.weight ≤ b.weight) := by
  refine ⟨?_, ?_, ?_⟩
  · unfold search
    apply le_trans (List.length_filter_le _ _)
    rw [List.length_map]
    apply le_trans (List.length_filter_le _ _)
    rw [List.length_take]
    exact min_le_left _ _
  · unfold search
    have h0 := annotateRows_pairwise (table.filter query)
    have h1 := List.Pairwise.sublist (List.take_sublist MAX_RESULTS _) h0
    have h2 : (((annotateRows (table.filter query)).take MAX_RESULTS).filter
        (fun p => p.2 == 1)).Pairwise (fun p q =>
          p.2 = 1 → q.2 = 1 →
            ¬ (p.1.object_type = q.1.object_type ∧ p.1.object_id = q.1.object_id)) :=
      List.Pairwise.sublist (List.filter_sublist _) h1
    have h3 : (((annotateRows (table.filter query)).take MAX_RESULTS).filter
        (fun p => p.2 == 1)).Pairwise (fun p q =>
          ¬ (p.1.object_type = q.1.object_type ∧ p.1.object_id = q.1.object_id)) := by
      refine List.Pairwise.imp_of_mem ?_ h2
      intro p q hpmem hqmem hr
      have hp1 : p.2 = 1 := by simpa using List.of_mem_filter hpmem
      have hq1 : q.2 = 1 := by simpa using List.of_mem_filter hqmem
      exact hr hp1 hq1
    have h4 : ((((annotateRows (table.filter query)).take MAX_RESULTS).filter
        (fun p => p.2 == 1)).map Prod.fst).Pairwise (fun a b =>
          ¬ (a.object_type = b.object_type ∧ a.object_id = b.object_id)) :=
      List.pairwise_map.mpr h3
    exact List.Pairwise.sublist (List.filter_sublist _) h4
  · intro cv hcv
    unfold search at hcv
    rw [List.mem_filter] at hcv
    obtain ⟨hcv1, hperm⟩ := hcv
    rw [List.mem_map] at hcv1
    obtain ⟨p, hpmem, hpfst⟩ := hcv1
    rw [List.mem_filter] at hpmem
    obtain ⟨hptake, hp1⟩ := hpmem
    obtain ⟨i, hig, hirn⟩ := mem_annotateRows (List.mem_of_mem_take hptake)
    have hp2 : p.2 = 1 := by simpa using hp1
    have h0 : rowsBefore (table.filter query) i.val ((table.filter query).get i) = 0 := by
      rw [rowNumber] at hirn
      omega
    subst hpfst
    refine ⟨?_, hperm, ?_⟩
    · rw [← hig]
      exact List.get_mem _ _ _
    · intro b hb hbt hbid
      have := rowsBefore_eq_zero_min h0 b hb (by rw [hig]; exact hbt) (by rw [hig]; exact hbid)
      rw [hig] at this
      exact this

/-- Witness for C4 at a concrete cache table. -/
theorem search_spec_witness :
    (search [demoCV] (fun _ => true) (fun _ _ => true)).length ≤ MAX_RESULTS ∧
    (search [demoCV] (fun _ => true) (fun _ _ => true)).Pairwise (fun a b =>
      ¬ (a.object_type = b.object_type ∧ a.object_id = b.object_id)) ∧
    (∀ cv ∈ search [demoCV] (fun _ => true) (fun _ _ => true),
      cv ∈ List.filter (fun _ => true) [demoCV] ∧
      (fun _ _ => true) cv.object_type cv.object_id = true ∧
      ∀ b ∈ List.filter (fun _ => true) [demoCV],
        b.object_type = cv.object_type → b.object_id = cv.object_id →
        cv.weight ≤ b.weight) :=
  search_spec [demoCV] (fun _ => true) (fun _ _ => true)

/-- Each signal-handler step preserves cache consistency. -/
theorem applyEvent_preserves_consistent (indexable : Nat → Bool) (st : SyncState)
    (ev : ModelEvent) (h : cacheConsistent indexable st) :
    cacheConsistent indexable (applyEvent indexable st ev) := by
  cases ev with
  | save ct pk fields created =>
    intro e he
    simp only [applyEvent, cacheInstance] at he
    by_cases hidx : indexable ct = true
    · rw [if_pos hidx] at he
      rcases List.mem_append.mp he with hL | hR
      · have he' : e ∈ st.cache := by
          by_cases hrem : (! created) = true
          · rw [if_pos hrem] at hL
            exact List.mem_of_mem_filter hL
          · rw [if_neg hrem] at hL
            exact hL
        obtain ⟨halive, hind⟩ := h e he'
        refine ⟨?_, hind⟩
        simp only [applyEvent]
        by_cases hmem : (ct, pk) ∈ st.alive
        · rw [if_pos hmem]
          exact halive
        · rw [if_neg hmem]
          exact List.mem_cons_of_mem _ halive
      · rw [List.mem_map] at hR
        obtain ⟨f, hf, rfl⟩ := hR
        refine ⟨?_, hidx⟩
        simp only [applyEvent]
        by_cases hmem : (ct, pk) ∈ st.alive
        · rw [if_pos hmem]
          exact hmem
        · rw [if_neg hmem]
          exact List.mem_cons_self _ _
    · rw [if_neg hidx] at he
      obtain ⟨halive, hind⟩ := h e he
      refine ⟨?_, hind⟩
      simp only [applyEvent]
      by_cases hmem : (ct, pk) ∈ st.alive
      · rw [if_pos hmem]
        exact halive
      · rw [if_neg hmem]
        exact List.mem_cons_of_mem _ halive
  | delete ct pk =>
    intro e he
    simp only [applyEvent, removeInstance] at he
    by_cases hidx : indexable ct = true
    · rw [if_pos hidx] at he
      have he' := List.mem_of_mem_filter he
      have hcond := List.of_mem_filter he
      rw [decide_eq_true_eq] at hcond
      obtain ⟨halive, hind⟩ := h e he'
      refine ⟨?_, hind⟩
      simp only [applyEvent]
      refine List.mem_filter.mpr ⟨halive, ?_⟩
      rw [decide_eq_true_eq]
      intro hcontra
      exact hcond ⟨(Prod.ext_iff.mp hcontra).1, (Prod.ext_iff.mp hcontra).2⟩
    · rw [if_neg hidx] at he
      obtain ⟨halive, hind⟩ := h e he
      refine ⟨?_, hind⟩
      simp only [applyEvent]
      refine List.mem_filter.mpr ⟨halive, ?_⟩
      rw [decide_eq_true_eq]
      intro hcontra
      have het : e.object_type = ct := (Prod.ext_iff.mp hcontra).1
      rw [het] at hind
      exact hidx hind

/-- Consistency is preserved along any event sequence. -/
theorem foldl_applyEvent_consistent (indexable : Nat → Bool) (events : List ModelEvent)
    (st : SyncState) (h : cacheConsistent indexable st) :
    cacheConsistent indexable (events.foldl (applyEvent indexable) st) := by
  induction events generalizing st with
  | nil => exact h
  | cons ev rest ih =>
    exact ih _ (applyEvent_preserves_consistent indexable st ev h)

/-- C8: the search cache is kept in sync by the signal handlers: a save
re-caches the instance, removing previously cached values first unless the
instance was newly created; a delete removes all cached values of the instance;
hence after any sequence of saves and deletes starting from an empty store, no
cached entry refers to a deleted object. -/
theorem cache_sync_spec (indexable : Nat → Bool) (events : List ModelEvent) :
    cacheConsistent indexable (runEvents indexable events) ∧
    (∀ st : SyncState, ∀ ct pk : Nat, ∀ fields : List CacheField,
      indexable ct = true →
      (applyEvent indexable st (ModelEvent.save ct pk fields false)).cache =
        removeCached ct pk st.cache ++ fields.map (fun f =>
          { object_type := ct, object_id := pk, field := f.name,
            weight := f.weight, value := f.value }) ∧
      (applyEvent indexable st (ModelEvent.save ct pk fields true)).cache =
        st.cache ++ fields.map (fun f =>
          { object_type := ct, object_id := pk, field := f.name,
            weight := f.weight, value := f.value })) ∧
    (∀ st : SyncState, ∀ ct pk : Nat, indexable ct = true →
      (applyEvent indexable st (ModelEvent.delete ct pk)).cache =
        removeCached ct pk st.cache) := by
  refine ⟨?_, ?_, ?_⟩
  · exact foldl_applyEvent_consistent indexable events _
      (fun e he => absurd he (List.not_mem_nil e))
  · intro st ct pk fields hidx
    constructor
    · simp only [applyEvent, cacheInstance, if_pos hidx, Bool.not_false, if_true]
    · simp only [applyEvent, cacheInstance, if_pos hidx, Bool.not_true,
        if_neg Bool.false_ne_true]
  · intro st ct pk hidx
    simp only [applyEvent, removeInstance, if_pos hidx]

/-- Witness for C8 on a concrete event sequence (a creation then a deletion). -/
theorem cache_sync_spec_witness :
    cacheConsistent (fun ct => ct == 1)
      (runEvents (fun ct => ct == 1)
        [ModelEvent.save 1 5 [{ name := "name", weight := 100, value := "x" }] true,
          ModelEvent.delete 1 5]) :=
  (cache_sync_spec (fun ct => ct == 1)
    [ModelEvent.save 1 5 [{ name := "name", weight := 100, value := "x" }] true,
      ModelEvent.delete 1 5]).1

/-- Witness for C9 at a concrete in-range VLAN. -/
theorem VLAN_clean_group_vid_bounds_witness :
    ((VLAN.clean ⟨some ⟨2, 5, some 1⟩, some 1, 3⟩ = Except.ok () → 2 ≤ 3 ∧ 3 ≤ 5) ∧
      (¬ (2 ≤ 3 ∧ 3 ≤ 5) → ∃ msg,
        VLAN.clean ⟨some ⟨2, 5, some 1⟩, some 1, 3⟩ = Except.error msg)) :=
  VLAN_clean_group_vid_bounds ⟨some ⟨2, 5, some 1⟩, some 1, 3⟩ ⟨2, 5, some 1⟩ rfl

end DCIM
